import Mathlib

/-!
# LibreVNA-GUI `mode.cpp`

A shallow embedding of `Mode` (`Software/PC_Application/LibreVNA-GUI/mode.cpp`):
activation and deactivation of a mode's docks, toolbars and actions, the
persistence of their visibility in the settings store, the name/type mapping
and the screenshot export.

Toolkit objects are values: a pointer to a widget is a handle (`Nat`), a null
pointer is `none`, a container of widget pointers is the list of the widgets it
iterates over.  A toolkit call is the state change the toolkit documents for it:
`hide()` sets the hidden flag, `setValue` binds the normalised key,
`setCurrentWidget` changes the page only to a page of the stack.  What the
toolkit decides on its own (the outcome of `restoreState`, the bytes of
`saveState`, the answer of the file dialog, whether a painter can start, how the
settings backend folds a key) is an argument of the model, see `Toolkit`.
`qDebug()` output is not part of the state.
-/

namespace LibreVNA

/-! ## Toolkit values -/

/-- Bytes of a `QByteArray`. -/
abbrev QByteArray := List Nat

/-- The two kinds of `QVariant` this file stores: the `bool` of `isHidden()` and
the `QByteArray` of `saveState()`. -/
inductive QVariant where
  | bool (b : Bool)
  | bytes (b : QByteArray)
  deriving DecidableEq, Repr

/-- ASCII lower-casing of one byte. -/
def lowerByte (b : Nat) : Nat := if 65 ≤ b ∧ b ≤ 90 then b + 32 else b

/-- Conversion `QVariant::toBool()`: a bool is itself, a byte array is true unless its
lower-cased content is empty, `0` or `false`. -/
def QVariant.toBool : QVariant → Bool
  | .bool b => b
  | .bytes bs =>
    let l := bs.map lowerByte
    !(l == [] || l == [48] || l == [102, 97, 108, 115, 101])

/-- Conversion `QVariant::toByteArray()` of the result of a lookup: an absent value is the
empty array, a bool is the text `true` or `false`. -/
def toByteArray : Option QVariant → QByteArray
  | none => []
  | some (.bytes bs) => bs
  | some (.bool true) => [116, 114, 117, 101]
  | some (.bool false) => [102, 97, 108, 115, 101]

/-- The persistent key-value store behind `QSettings`: the bindings, newest first, each
under its normalised key. -/
abbrev QSettings := List (String × QVariant)

/-- The binding of an exact, already normalised key, if any. -/
def QSettings.find (s : QSettings) (key : String) : Option QVariant :=
  match s with
  | [] => none
  | (k, v) :: rest => if k = key then some v else QSettings.find rest key

/-- Slash normalisation of a settings key, character by character: a `/` is dropped at
the beginning and at the end, and a run of `/` between two other characters is
written as one `/`.  The flag `seen` tells that a character has been written,
`pending` that a `/` was read after it. -/
def normalizedFrom : Bool → Bool → List Char → List Char
  | _, _, [] => []
  | seen, pending, c :: cs =>
    if c = '/' then normalizedFrom seen seen cs
    else if pending then '/' :: c :: normalizedFrom true false cs
    else c :: normalizedFrom true false cs

/-- Slash normalisation of a settings key (`QSettingsPrivate::normalizedKey`). -/
def slashNormalized (key : String) : String :=
  String.mk (normalizedFrom false false key.data)

/-- A dock widget or a toolbar: the properties of `QDockWidget` / `QToolBar` that
`Mode` reads or writes.  `toggleViewAction` is the handle of the widget's own
toggle-view `QAction`. -/
structure QWidget where
  windowTitle : String
  objectName : String
  hidden : Bool
  toggleViewAction : Nat
  deriving DecidableEq, Repr

/-- Call `w->show()`. -/
def QWidget.show (w : QWidget) : QWidget := { w with hidden := false }

/-- Call `w->hide()`. -/
def QWidget.hide (w : QWidget) : QWidget := { w with hidden := true }

/-- Call `w->isHidden()`. -/
def QWidget.isHidden (w : QWidget) : Bool := w.hidden

/-- Call `w->setObjectName(n)`. -/
def QWidget.setObjectName (w : QWidget) (n : String) : QWidget := { w with objectName := n }

/-- A menu action owned by the mode. -/
structure QAction where
  handle : Nat
  visible : Bool
  deriving DecidableEq, Repr

/-- Call `a->setVisible(v)`. -/
def QAction.setVisible (v : Bool) (a : QAction) : QAction := { a with visible := v }

/-- The actions of a menu, in order. -/
abbrev QMenu := List Nat

/-- Call `menu->removeAction(a)`. -/
def QMenu.removeAction (menu : QMenu) (a : Nat) : QMenu := menu.filter (fun x => x ≠ a)

/-- Call `menu->addAction(a)`: a menu holds an action once; the action goes to the end. -/
def QMenu.addAction (menu : QMenu) (a : Nat) : QMenu := QMenu.removeAction menu a ++ [a]

/-- The `QStackedWidget` returned by `window->getCentral()`. -/
structure QStackedWidget where
  widgets : List Nat
  current : Option Nat
  deriving DecidableEq, Repr

/-- Call `stack->addWidget(w)`: appends the page; the page added to an empty stack
becomes the current one. -/
def QStackedWidget.addWidget (s : QStackedWidget) (w : Nat) : QStackedWidget :=
  { widgets := s.widgets ++ [w]
    current := if s.widgets = [] then some w else s.current }

/-- Call `stack->setCurrentWidget(w)`: `w` becomes the current page if it is a page of the
stack; for a null pointer or a widget that is no page the toolkit only warns and the
current page stays. -/
def QStackedWidget.setCurrentWidget (s : QStackedWidget) (w : Option Nat) : QStackedWidget :=
  match w with
  | none => s
  | some p => if p ∈ s.widgets then { s with current := some p } else s

/-- The part of `Ui::MainWindow` that `Mode` uses. -/
structure Ui where
  menuToolbars : QMenu
  menuDocks : QMenu
  deriving DecidableEq, Repr

/-- The part of `AppWindow` that `Mode` uses; `device` is `window->getDevice()`, `none`
for a null pointer. -/
structure AppWindow where
  ui : Ui
  central : QStackedWidget
  device : Option Nat
  deriving DecidableEq, Repr

/-- The part of `Preferences::getInstance().UISettings` that `saveSreenshot` uses;
`pathsImage` is `Paths.image`. -/
structure UISettings where
  pathsImage : String
  saveImageFilterIndex : Int
  deriving DecidableEq, Repr

/-- What the program does to the outside, in order. -/
inductive Event where
  /-- the call `initializeDevice()` -/
  | initializeDevice
  /-- the call `window->getDevice()->setIdle()` on the device with this handle -/
  | setIdle (device : Nat)
  /-- the signal `statusbarMessage(msg)` -/
  | statusbarMessage (msg : String)
  /-- the call `central->grab().save(filename)` -/
  | grabSave (central : Nat) (filename : String)
  /-- an SVG generator set up for `filename` with the size of `central` -/
  | svgGenerator (central : Nat) (filename : String)
  /-- the call `central->render(&painter)` on the generator of `filename` -/
  | svgRender (central : Nat) (filename : String)
  deriving DecidableEq, Repr

/-- Everything outside the `Mode` object that its methods read or write. -/
structure World where
  window : AppWindow
  settings : QSettings
  prefs : UISettings
  log : List Event
  deriving DecidableEq, Repr

/-- The answer of `QFileDialog::getSaveFileName`: the file name (empty when the
dialog was aborted) and the filter the dialog left in `selectedFilter`. -/
structure FileDialogResult where
  filename : String
  selectedFilter : String
  deriving DecidableEq, Repr

/-- The decisions of the toolkit that the code cannot see into.
* `saveState`: the bytes `window->saveState()` returns;
* `restoreDock`, `restoreToolbar`: the hidden flag `window->restoreState(bytes)`
  leaves on the dock / toolbar at a position of the mode's container, given the
  bytes and the widgets as they were before the call;
* `getSaveFileName dir filterString selectedFilter`: the answer of the dialog;
* `painterBegin filename`: the result of `painter.begin(&generator)`;
* `keyFold`: what the settings backend does to a slash-normalised key before it
  compares it: nothing on a case-sensitive backend, case folding on a
  case-insensitive one such as the Windows registry. -/
structure Toolkit where
  saveState : AppWindow → List QWidget → List QWidget → QByteArray
  restoreDock : QByteArray → List QWidget → List QWidget → Nat → Bool
  restoreToolbar : QByteArray → List QWidget → List QWidget → Nat → Bool
  getSaveFileName : String → String → String → FileDialogResult
  painterBegin : String → Bool
  keyFold : String → String

/-- The key under which the settings store keeps the value of `key`: the slash-normalised
key as folded by the backend. -/
def normalizedKey (qt : Toolkit) (key : String) : String :=
  qt.keyFold (slashNormalized key)

/-- Lookup `settings.value(key)` for a non-empty `key`, as all keys of `Mode` are: the
value bound to the normalised `key`, if any. -/
def QSettings.value (qt : Toolkit) (s : QSettings) (key : String) : Option QVariant :=
  QSettings.find s (normalizedKey qt key)

/-- Lookup `settings.value(key, defaultValue)`. -/
def QSettings.valueD (qt : Toolkit) (s : QSettings) (key : String) (defaultValue : QVariant) :
    QVariant :=
  (QSettings.value qt s key).getD defaultValue

/-- Update `settings.setValue(key, value)` for a non-empty `key`, as all keys of `Mode` are:
binds the normalised `key`, replacing a previous binding of it. -/
def QSettings.setValue (qt : Toolkit) (s : QSettings) (key : String) (value : QVariant) :
    QSettings :=
  (normalizedKey qt key, value) :: s.filter (fun kv => kv.1 ≠ normalizedKey qt key)

/-- Gives the widget at position `i`, `i + 1`, ... the hidden flag `f` assigns to its
position. -/
def setHiddenFrom (f : Nat → Bool) : Nat → List QWidget → List QWidget
  | _, [] => []
  | i, w :: ws => { w with hidden := f i } :: setHiddenFrom f (i + 1) ws

/-- Effect of `window->restoreState(bytes)` on the docks and toolbars of the mode. -/
def restoreState (qt : Toolkit) (bytes : QByteArray) (docks toolbars : List QWidget) :
    List QWidget × List QWidget :=
  (setHiddenFrom (qt.restoreDock bytes docks toolbars) 0 docks,
   setHiddenFrom (qt.restoreToolbar bytes docks toolbars) 0 toolbars)

/-! ## The `Mode` object -/

/-- The fields of `Mode`. `central` is `none` for `nullptr`. -/
structure Mode where
  isActive : Bool
  name : String
  central : Option Nat
  docks : List QWidget
  toolbars : List QWidget
  actions : List QAction
  statusbarMsg : String
  deriving DecidableEq, Repr

/-- Settings key of the visibility of a dock. -/
def dockKey (name title : String) : String := "dock_" ++ name ++ "_" ++ title

/-- Settings key of the visibility of a toolbar. -/
def toolbarKey (name title : String) : String := "toolbar_" ++ name ++ "_" ++ title

/-- Settings key of the window state of a mode. -/
def windowStateKey (name : String) : String := "windowState_" ++ name

/-- The loop body of `activate` that restores one widget: reads the stored flag, with
the widget's present `isHidden()` as default, and hides or shows the widget. -/
def restoreVisibility (qt : Toolkit) (settings : QSettings) (key : String) (w : QWidget) :
    QWidget :=
  let hidden := (QSettings.valueD qt settings key (.bool w.isHidden)).toBool
  if hidden then w.hide else w.show

/-- Method `Mode::activate()`. -/
def Mode.activate (qt : Toolkit) (m : Mode) (w : World) : Mode × World :=
  -- show all mode specific GUI elements
  let toolbars₁ := m.toolbars.map QWidget.show
  let menuToolbars := m.toolbars.foldl (fun menu t => QMenu.addAction menu t.toggleViewAction)
    w.window.ui.menuToolbars
  let docks₁ := m.docks.map QWidget.show
  let menuDocks := m.docks.foldl (fun menu d => QMenu.addAction menu d.toggleViewAction)
    w.window.ui.menuDocks
  let actions := m.actions.map (QAction.setVisible true)
  let central := w.window.central.setCurrentWidget m.central
  -- restore dock and toolbar positions
  let restored := restoreState qt
    (toByteArray (QSettings.value qt w.settings (windowStateKey m.name))) docks₁ toolbars₁
  -- restore visibility of toolbars and docks
  let docks₂ := restored.1.map
    (fun d => restoreVisibility qt w.settings (dockKey m.name d.windowTitle) d)
  let toolbars₂ := restored.2.map
    (fun t => restoreVisibility qt w.settings (toolbarKey m.name t.windowTitle) t)
  let log₁ := match w.window.device with
    | some _ => w.log ++ [Event.initializeDevice]
    | none => w.log
  ({ m with isActive := true, docks := docks₂, toolbars := toolbars₂, actions := actions },
   { w with
     window := { w.window with
       ui := { menuToolbars := menuToolbars, menuDocks := menuDocks }
       central := central }
     log := log₁ ++ [Event.statusbarMessage m.statusbarMsg] })

/-- The settings after the two saving loops and the `windowState_` write of
`deactivate`. -/
def saveLayout (qt : Toolkit) (m : Mode) (w : World) : QSettings :=
  let s₁ := m.docks.foldl
    (fun s d => QSettings.setValue qt s (dockKey m.name d.windowTitle) (.bool d.isHidden))
    w.settings
  let s₂ := m.toolbars.foldl
    (fun s t => QSettings.setValue qt s (toolbarKey m.name t.windowTitle) (.bool t.isHidden)) s₁
  QSettings.setValue qt s₂ (windowStateKey m.name)
    (.bytes (qt.saveState w.window m.docks m.toolbars))

/-- Method `Mode::deactivate()`. -/
def Mode.deactivate (qt : Toolkit) (m : Mode) (w : World) : Mode × World :=
  -- save dock/toolbar visibility
  let settings := saveLayout qt m w
  -- hide all mode specific GUI elements
  let toolbars := m.toolbars.map QWidget.hide
  let menuToolbars := m.toolbars.foldl (fun menu t => QMenu.removeAction menu t.toggleViewAction)
    w.window.ui.menuToolbars
  let docks := m.docks.map QWidget.hide
  let menuDocks := m.docks.foldl (fun menu d => QMenu.removeAction menu d.toggleViewAction)
    w.window.ui.menuDocks
  let actions := m.actions.map (QAction.setVisible false)
  let log := match w.window.device with
    | some dev => w.log ++ [Event.setIdle dev]
    | none => w.log
  ({ m with isActive := false, docks := docks, toolbars := toolbars, actions := actions },
   { w with
     window := { w.window with ui := { menuToolbars := menuToolbars, menuDocks := menuDocks } }
     settings := settings
     log := log })

/-- Method `Mode::finalize(centralWidget)`, for `centralWidget` pointing to a widget. -/
def Mode.finalize (m : Mode) (centralWidget : Nat) (w : World) : Mode × World :=
  let stack := w.window.central.addWidget centralWidget
  -- Set ObjectName for toolbars and docks
  let docks₁ := m.docks.map (fun d => d.setObjectName (d.windowTitle ++ m.name))
  let toolbars₁ := m.toolbars.map (fun t => t.setObjectName (t.windowTitle ++ m.name))
  -- hide all mode specific GUI elements
  let toolbars₂ := toolbars₁.map QWidget.hide
  let docks₂ := docks₁.map QWidget.hide
  let actions := m.actions.map (QAction.setVisible false)
  ({ m with
     central := some centralWidget, docks := docks₂, toolbars := toolbars₂, actions := actions },
   { w with window := { w.window with central := stack } })

/-! ## Name/type mapping -/

/-- Modelled from the spec: the enumeration `Mode::Type` is declared in `mode.h`; its
enumerators are `VNA`, `SG`, `SA` and the end marker `Last`, in this order.  A value
is its underlying integer, so that the casts `(Type) i` and `(int) Type::Last` of
`TypeFromName` are the identity. -/
abbrev ModeType := Nat

/-- Enumerator `Type::VNA`. -/
abbrev ModeType.VNA : ModeType := 0

/-- Enumerator `Type::SG`. -/
abbrev ModeType.SG : ModeType := 1

/-- Enumerator `Type::SA`. -/
abbrev ModeType.SA : ModeType := 2

/-- Enumerator `Type::Last`. -/
abbrev ModeType.Last : ModeType := 3

/-- Function `Mode::TypeToName(t)`. -/
def TypeToName (t : ModeType) : String :=
  if t = ModeType.VNA then "Vector Network Analyzer"
  else if t = ModeType.SG then "Signal Generator"
  else if t = ModeType.SA then "Spectrum Analyzer"
  else "Invalid"

/-- The loop of `TypeFromName` over the candidates `i`, `i + 1`, ... still to try. -/
def TypeFromName.loop (s : String) : List Nat → ModeType
  | [] => ModeType.Last
  | i :: rest => if s = TypeToName i then i else TypeFromName.loop s rest

/-- Function `Mode::TypeFromName(s)`: tries `i = 0, 1, ...` while `i < (int) Type::Last`. -/
def TypeFromName (s : String) : ModeType :=
  TypeFromName.loop s (List.range ModeType.Last)

/-! ## Screenshot export -/

/-- Method `QString::toUpper()`. -/
def toUpper (s : String) : String := String.mk (s.data.map Char.toUpper)

/-- Method `QString::endsWith(e)`. -/
def endsWith (s e : String) : Bool := e.data.isSuffixOf s.data

/-- Function `qBound(min, val, max)`. -/
def qBound (min val max : Int) : Int := Max.max min (Min.min max val)

/-- Method `QList::indexOf(x)` started at position `i`: the position of the first
occurrence, `-1` if there is none. -/
def qIndexOfFrom (x : String) : Int → List String → Int
  | _, [] => -1
  | i, y :: ys => if y = x then i else qIndexOfFrom x (i + 1) ys

/-- Method `QList::indexOf(x)`. -/
def qIndexOf (l : List String) (x : String) : Int := qIndexOfFrom x 0 l

/-- Access `list[i]`; `none` when `i` is out of range. -/
def qAt (l : List String) (i : Int) : Option String :=
  if i < 0 then none else l.get? i.toNat

/-- The characters before the last `/` of a path, `none` if it has no `/`. -/
def beforeLastSlash : List Char → Option (List Char)
  | [] => none
  | c :: cs =>
    match beforeLastSlash cs with
    | some d => some (c :: d)
    | none => if c = '/' then some [] else none

/-- Call `QFileInfo(filename).path()`: the file name without its last component; `.` when
there is no directory part, `/` for a file in the root directory. -/
def QFileInfo.path (filename : String) : String :=
  match beforeLastSlash filename.data with
  | none => "."
  | some [] => "/"
  | some d => String.mk d

/-- The list `extensions` of `saveSreenshot`. -/
def extensions : List String := ["png", "svg"]

/-- The list `filters` of `saveSreenshot`, one entry per extension. -/
def filters : List String :=
  extensions.map (fun ext => toUpper ext ++ " image files (*." ++ ext ++ ")")

/-- The file name `saveSreenshot` exports to: `filename` with the extension appended
unless it ends with it already. -/
def exportName (filename extension : String) : String :=
  if !(endsWith filename extension) then filename ++ ("." ++ extension) else filename

/-- The `switch (filterIndex)` of `saveSreenshot`; `none` when a null `central` is
dereferenced. -/
def exportImage (qt : Toolkit) (central : Option Nat) (filterIndex : Int) (filename : String)
    (log : List Event) : Option (List Event) :=
  if filterIndex = 0 then
    -- PNG
    match central with
    | none => none
    | some c => some (log ++ [Event.grabSave c filename])
  else if filterIndex = 1 then
    -- SVG
    match central with
    | none => none
    | some c =>
      if qt.painterBegin filename then
        some (log ++ [Event.svgGenerator c filename, Event.svgRender c filename])
      else
        some (log ++ [Event.svgGenerator c filename])
  else
    some log

/-- The filter `saveSreenshot` pre-selects in the dialog: `filters[filterIndex]` for the
stored index clamped by `qBound`. -/
def preselectedFilter (settings : UISettings) : Option String :=
  let filterIndex := qBound 0 settings.saveImageFilterIndex ((filters.length : Int) - 1)
  qAt filters filterIndex

/-- The call of `QFileDialog::getSaveFileName` in `saveSreenshot` and its answer. -/
def askFileName (qt : Toolkit) (w : World) : Option FileDialogResult :=
  let settings := w.prefs
  let filterString := ";;".intercalate filters
  match preselectedFilter settings with
  | none => none
  | some selectedFilter =>
    some (qt.getSaveFileName settings.pathsImage filterString selectedFilter)

/-- Method `Mode::saveSreenshot()`; `none` when a list is indexed out of range or a
null `central` is dereferenced. -/
def Mode.saveSreenshot (qt : Toolkit) (m : Mode) (w : World) : Option World :=
  match askFileName qt w with
  | none => none
  | some r =>
    if r.filename = "" then
      -- aborted selection
      some w
    else
      let filterIndex := qIndexOf filters r.selectedFilter
      match qAt extensions filterIndex with
      | none => none
      | some extension =>
        let filename := exportName r.filename extension
        let settings := { pathsImage := QFileInfo.path filename, saveImageFilterIndex := filterIndex }
        match exportImage qt m.central filterIndex filename w.log with
        | none => none
        | some log => some { w with prefs := settings, log := log }

/-- The settings keys of a mode: those `deactivate` writes, which are those `activate`
reads. -/
def settingsKeys (m : Mode) : List String :=
  windowStateKey m.name ::
    (m.docks.map (fun d => dockKey m.name d.windowTitle) ++
     m.toolbars.map (fun t => toolbarKey m.name t.windowTitle))

/-- The settings keys of a mode are kept apart by the store when no two of them have
the same normalised key. -/
def KeysDistinct (qt : Toolkit) (m : Mode) : Prop :=
  ((settingsKeys m).map (normalizedKey qt)).Nodup

instance (qt : Toolkit) (m : Mode) : Decidable (KeysDistinct qt m) :=
  inferInstanceAs (Decidable ((settingsKeys m).map (normalizedKey qt)).Nodup)

/-- Two modes have their settings keys apart when no key of one has the normalised key
of a key of the other. -/
def KeysApart (qt : Toolkit) (a b : Mode) : Prop :=
  ∀ k ∈ settingsKeys a, ∀ k₂ ∈ settingsKeys b, normalizedKey qt k ≠ normalizedKey qt k₂

instance (qt : Toolkit) (a b : Mode) : Decidable (KeysApart qt a b) :=
  inferInstanceAs (Decidable
    (∀ k ∈ settingsKeys a, ∀ k₂ ∈ settingsKeys b, normalizedKey qt k ≠ normalizedKey qt k₂))

/-- Two mode names are separated when neither is the other followed by an underscore
and further characters, that is when neither `a_` is a beginning of `b` nor `b_` one
of `a`. -/
def Separated (a b : String) : Prop :=
  ¬ (a.data ++ ['_']) <+: b.data ∧ ¬ (b.data ++ ['_']) <+: a.data

instance (a b : String) : Decidable (Separated a b) :=
  inferInstanceAs (Decidable (¬ (a.data ++ ['_']) <+: b.data ∧ ¬ (b.data ++ ['_']) <+: a.data))

/-- The window titles of the docks and toolbars of a mode. -/
def Mode.titles (m : Mode) : List String :=
  m.docks.map (fun d => d.windowTitle) ++ m.toolbars.map (fun t => t.windowTitle)

/-- Two modes are told apart by their raw keys when their names are separated or none of
their window titles contains an underscore. -/
def ToldApart (a b : Mode) : Prop :=
  Separated a.name b.name ∨ ∀ t ∈ a.titles ++ b.titles, '_' ∉ t.data

instance (a b : Mode) : Decidable (ToldApart a b) :=
  inferInstanceAs (Decidable (Separated a.name b.name ∨ ∀ t ∈ a.titles ++ b.titles, '_' ∉ t.data))

/-- Neither the name nor a window title of the mode contains a `/`. -/
def SlashFree (m : Mode) : Prop :=
  '/' ∉ m.name.data ∧ ∀ t ∈ m.titles, '/' ∉ t.data

instance (m : Mode) : Decidable (SlashFree m) :=
  inferInstanceAs (Decidable ('/' ∉ m.name.data ∧ ∀ t ∈ m.titles, '/' ∉ t.data))

/-- The state the constructor `Mode::Mode(window, name, SCPIname)` leaves: inactive, no
central widget yet, no docks, toolbars or actions. -/
def Mode.init (name : String) : Mode where
  isActive := false
  name := name
  central := none
  docks := []
  toolbars := []
  actions := []
  statusbarMsg := ""

/-- Switching from mode `b` to mode `a` and back: `b.deactivate()`, `a.activate()`,
`a.deactivate()`, `b.activate()`.  The result is mode `a`, mode `b` and the world at
the end. -/
def switchAndBack (qt : Toolkit) (a b : Mode) (w : World) : Mode × Mode × World :=
  let saved := b.deactivate qt w
  let other := a.activate qt saved.2
  let left := other.1.deactivate qt other.2
  let back := saved.1.activate qt left.2
  (left.1, back.1, back.2)

/-! ## Concrete states -/

/-- A toolkit whose `restoreState` hides every dock and shows every toolbar, whose file
dialog answers `plot` in the offered directory with the SVG filter, and whose settings
backend is case-sensitive. -/
def exampleToolkit : Toolkit where
  saveState := fun _ _ _ => [0, 0, 0, 255]
  restoreDock := fun _ _ _ _ => true
  restoreToolbar := fun _ _ _ _ => false
  getSaveFileName := fun dir _ _ => { filename := dir ++ "/plot", selectedFilter := "SVG image files (*.svg)" }
  painterBegin := fun _ => true
  keyFold := fun key => key

/-- The toolkit `exampleToolkit` on a case-insensitive settings backend, which compares
keys in lower case. -/
def registryToolkit : Toolkit :=
  { exampleToolkit with keyFold := fun key => String.mk (key.data.map Char.toLower) }

/-- The toolkit `exampleToolkit` with a file dialog that is aborted. -/
def abortingToolkit : Toolkit :=
  { exampleToolkit with
    getSaveFileName := fun _ _ sel => { filename := "", selectedFilter := sel } }

/-- A finalized mode with two docks and two toolbars. -/
def exampleMode : Mode where
  isActive := true
  name := "Vector Network Analyzer"
  central := some 1
  docks := [{ windowTitle := "Traces", objectName := "", hidden := false, toggleViewAction := 10 },
            { windowTitle := "Markers", objectName := "", hidden := true, toggleViewAction := 11 }]
  toolbars := [{ windowTitle := "Sweep", objectName := "", hidden := true, toggleViewAction := 20 },
               { windowTitle := "Acquisition", objectName := "", hidden := false, toggleViewAction := 21 }]
  actions := [{ handle := 30, visible := true }]
  statusbarMsg := "ready"

/-- A second mode. -/
def otherMode : Mode where
  isActive := false
  name := "Signal Generator"
  central := some 2
  docks := [{ windowTitle := "Traces", objectName := "", hidden := true, toggleViewAction := 12 }]
  toolbars := []
  actions := []
  statusbarMsg := ""

/-- A window with a device, an empty settings store and default preferences. -/
def exampleWorld : World where
  window := { ui := { menuToolbars := [20, 21], menuDocks := [10, 11] }
              central := { widgets := [1, 2], current := some 1 }
              device := some 7 }
  settings := []
  prefs := { pathsImage := "/home/user", saveImageFilterIndex := 0 }
  log := []

/-- A mode with a hidden dock titled `X` and a visible dock titled `X/`. -/
def slashMode : Mode where
  isActive := true
  name := "M"
  central := some 1
  docks := [{ windowTitle := "X", objectName := "", hidden := true, toggleViewAction := 10 },
            { windowTitle := "X/", objectName := "", hidden := false, toggleViewAction := 11 }]
  toolbars := []
  actions := []
  statusbarMsg := ""

/-- A mode with docks titled `Traces` and `traces`. -/
def caseMode : Mode where
  isActive := true
  name := "M"
  central := some 1
  docks := [{ windowTitle := "Traces", objectName := "", hidden := true, toggleViewAction := 10 },
            { windowTitle := "traces", objectName := "", hidden := false, toggleViewAction := 11 }]
  toolbars := []
  actions := []
  statusbarMsg := ""

/-- Mode `A` with a hidden dock titled `B_X`. -/
def modeA : Mode where
  isActive := true
  name := "A"
  central := some 1
  docks := [{ windowTitle := "B_X", objectName := "", hidden := true, toggleViewAction := 10 }]
  toolbars := []
  actions := []
  statusbarMsg := ""

/-- Mode `A_B` with a dock titled `X`. -/
def modeAB : Mode where
  isActive := false
  name := "A_B"
  central := some 2
  docks := [{ windowTitle := "X", objectName := "", hidden := true, toggleViewAction := 12 }]
  toolbars := []
  actions := []
  statusbarMsg := ""

/-- A world in which mode `A_B` has saved its dock `X` as visible. -/
def worldAB : World :=
  { exampleWorld with settings := [("dock_A_B_X", QVariant.bool false)] }

/-! ## Lemmas on the settings store -/

theorem find_filter_ne (s : QSettings) (k key : String) (h : key ≠ k) :
    QSettings.find (s.filter (fun kv => kv.1 ≠ k)) key = QSettings.find s key := by
  induction s with
  | nil => rfl
  | cons kv rest ih =>
    obtain ⟨a, v⟩ := kv
    by_cases hak : a = k
    · have hne : a ≠ key := fun e => h (by rw [← e, hak])
      have hf : List.filter (fun kv => decide (kv.1 ≠ k)) ((a, v) :: rest)
          = List.filter (fun kv => decide (kv.1 ≠ k)) rest := by
        rw [List.filter_cons]; simp [hak]
      rw [hf, ih]
      simp [QSettings.find, hne]
    · have hf : List.filter (fun kv => decide (kv.1 ≠ k)) ((a, v) :: rest)
          = (a, v) :: List.filter (fun kv => decide (kv.1 ≠ k)) rest := by
        rw [List.filter_cons]; simp [hak]
      rw [hf]
      by_cases hkey : a = key
      · simp [QSettings.find, hkey]
      · simp only [QSettings.find, hkey, if_false]
        exact ih

theorem value_setValue_same (qt : Toolkit) (s : QSettings) (k : String) (v : QVariant) :
    QSettings.value qt (QSettings.setValue qt s k v) k = some v := by
  simp [QSettings.setValue, QSettings.value, QSettings.find]

theorem value_setValue_ne (qt : Toolkit) (s : QSettings) (k key : String) (v : QVariant)
    (h : normalizedKey qt key ≠ normalizedKey qt k) :
    QSettings.value qt (QSettings.setValue qt s k v) key = QSettings.value qt s key := by
  have hk : normalizedKey qt k ≠ normalizedKey qt key := fun e => h e.symm
  simp only [QSettings.setValue, QSettings.value, QSettings.find, hk, if_false]
  exact find_filter_ne s _ _ h

/-- Writing a list of bindings leaves the value of every key whose normalised key is
none of the normalised keys written. -/
theorem value_foldl_setValue_frame {α : Type} (qt : Toolkit) (f : α → String)
    (g : α → QVariant) (l : List α) (s : QSettings) (key : String)
    (h : ∀ x ∈ l, normalizedKey qt key ≠ normalizedKey qt (f x)) :
    QSettings.value qt (l.foldl (fun s x => QSettings.setValue qt s (f x) (g x)) s) key
      = QSettings.value qt s key := by
  induction l generalizing s with
  | nil => rfl
  | cons x xs ih =>
    simp only [List.foldl_cons]
    rw [ih _ (fun y hy => h y (List.mem_cons_of_mem _ hy))]
    exact value_setValue_ne qt s (f x) key (g x) (h x (List.mem_cons_self _ _))

/-- After writing a list of bindings with pairwise distinct normalised keys, each key
holds the value written for it. -/
theorem value_foldl_setValue_mem {α : Type} (qt : Toolkit) (f : α → String)
    (g : α → QVariant) (l : List α) (s : QSettings)
    (hn : (l.map (fun x => normalizedKey qt (f x))).Nodup) (x : α) (hx : x ∈ l) :
    QSettings.value qt (l.foldl (fun s x => QSettings.setValue qt s (f x) (g x)) s) (f x)
      = some (g x) := by
  induction l generalizing s with
  | nil => cases hx
  | cons y ys ih =>
    simp only [List.map_cons, List.nodup_cons] at hn
    simp only [List.foldl_cons]
    rcases List.mem_cons.1 hx with rfl | hmem
    · rw [value_foldl_setValue_frame qt f g ys _ (f x)]
      · exact value_setValue_same qt s (f x) (g x)
      · intro z hz e
        exact hn.1 (e ▸ List.mem_map_of_mem (fun x => normalizedKey qt (f x)) hz)
    · exact ih _ hn.2 hmem

/-! ## What `deactivate` stores -/

/-- The parts of `KeysDistinct`: the dock keys among themselves, the toolbar keys among
themselves, dock keys against toolbar keys, and both against the window state key. -/
theorem keysDistinct_parts (qt : Toolkit) (m : Mode) (h : KeysDistinct qt m) :
    (m.docks.map (fun d => normalizedKey qt (dockKey m.name d.windowTitle))).Nodup ∧
    (m.toolbars.map (fun t => normalizedKey qt (toolbarKey m.name t.windowTitle))).Nodup ∧
    (∀ d ∈ m.docks, ∀ t ∈ m.toolbars,
      normalizedKey qt (dockKey m.name d.windowTitle)
        ≠ normalizedKey qt (toolbarKey m.name t.windowTitle)) ∧
    (∀ d ∈ m.docks,
      normalizedKey qt (dockKey m.name d.windowTitle)
        ≠ normalizedKey qt (windowStateKey m.name)) ∧
    (∀ t ∈ m.toolbars,
      normalizedKey qt (toolbarKey m.name t.windowTitle)
        ≠ normalizedKey qt (windowStateKey m.name)) := by
  unfold KeysDistinct settingsKeys at h
  rw [List.map_cons, List.nodup_cons, List.map_append, List.nodup_append, List.map_map,
    List.map_map] at h
  obtain ⟨hw, hd, ht, hdisj⟩ := h
  refine ⟨hd, ht, ?_, ?_, ?_⟩
  · intro d hd₂ t ht₂ e
    exact hdisj (List.mem_map.2 ⟨d, hd₂, rfl⟩) (List.mem_map.2 ⟨t, ht₂, e.symm⟩)
  · intro d hd₂ e
    apply hw
    rw [List.mem_append]
    exact Or.inl (List.mem_map.2 ⟨d, hd₂, e⟩)
  · intro t ht₂ e
    apply hw
    rw [List.mem_append]
    exact Or.inr (List.mem_map.2 ⟨t, ht₂, e⟩)

/-- Saving the layout leaves every key whose normalised key is none of the normalised
settings keys of the mode. -/
theorem value_saveLayout_frame (qt : Toolkit) (m : Mode) (w : World) (key : String)
    (h : ∀ k ∈ settingsKeys m, normalizedKey qt key ≠ normalizedKey qt k) :
    QSettings.value qt (saveLayout qt m w) key = QSettings.value qt w.settings key := by
  have hw : normalizedKey qt key ≠ normalizedKey qt (windowStateKey m.name) :=
    h _ (List.mem_cons_self _ _)
  have hd : ∀ d ∈ m.docks,
      normalizedKey qt key ≠ normalizedKey qt (dockKey m.name d.windowTitle) := by
    intro d hd
    apply h
    simp only [settingsKeys, List.mem_cons, List.mem_append, List.mem_map]
    exact Or.inr (Or.inl ⟨d, hd, rfl⟩)
  have ht : ∀ t ∈ m.toolbars,
      normalizedKey qt key ≠ normalizedKey qt (toolbarKey m.name t.windowTitle) := by
    intro t ht
    apply h
    simp only [settingsKeys, List.mem_cons, List.mem_append, List.mem_map]
    exact Or.inr (Or.inr ⟨t, ht, rfl⟩)
  unfold saveLayout
  simp only []
  rw [value_setValue_ne _ _ _ _ _ hw,
    value_foldl_setValue_frame qt (fun t : QWidget => toolbarKey m.name t.windowTitle)
      (fun t => QVariant.bool t.isHidden) _ _ _ ht,
    value_foldl_setValue_frame qt (fun d : QWidget => dockKey m.name d.windowTitle)
      (fun d => QVariant.bool d.isHidden) _ _ _ hd]

/-- With distinct normalised keys, the key of each dock holds its hidden flag. -/
theorem value_saveLayout_dock (qt : Toolkit) (m : Mode) (w : World)
    (hn : KeysDistinct qt m) (d : QWidget) (hd : d ∈ m.docks) :
    QSettings.value qt (saveLayout qt m w) (dockKey m.name d.windowTitle)
      = some (QVariant.bool d.hidden) := by
  obtain ⟨hD, _, hDT, hDW, _⟩ := keysDistinct_parts qt m hn
  unfold saveLayout
  simp only []
  rw [value_setValue_ne _ _ _ _ _ (hDW d hd),
    value_foldl_setValue_frame qt (fun t : QWidget => toolbarKey m.name t.windowTitle)
      (fun t => QVariant.bool t.isHidden) _ _ _ (fun t ht => hDT d hd t ht)]
  exact value_foldl_setValue_mem qt (fun d => dockKey m.name d.windowTitle)
    (fun d => QVariant.bool d.isHidden) m.docks w.settings hD d hd

/-- With distinct normalised keys, the key of each toolbar holds its hidden flag. -/
theorem value_saveLayout_toolbar (qt : Toolkit) (m : Mode) (w : World)
    (hn : KeysDistinct qt m) (t : QWidget) (ht : t ∈ m.toolbars) :
    QSettings.value qt (saveLayout qt m w) (toolbarKey m.name t.windowTitle)
      = some (QVariant.bool t.hidden) := by
  obtain ⟨_, hT, _, _, hTW⟩ := keysDistinct_parts qt m hn
  unfold saveLayout
  simp only []
  rw [value_setValue_ne _ _ _ _ _ (hTW t ht)]
  exact value_foldl_setValue_mem qt (fun t : QWidget => toolbarKey m.name t.windowTitle)
    (fun t : QWidget => QVariant.bool t.isHidden) m.toolbars
    (m.docks.foldl
      (fun s d => QSettings.setValue qt s (dockKey m.name d.windowTitle) (.bool d.isHidden))
      w.settings) hT t ht

/-! ## Lemmas on the settings keys -/

theorem dockKey_data (n t : String) :
    (dockKey n t).data = 'd' :: 'o' :: 'c' :: 'k' :: '_' :: (n.data ++ '_' :: t.data) := by
  simp [dockKey, String.data_append]

theorem toolbarKey_data (n t : String) :
    (toolbarKey n t).data
      = 't' :: 'o' :: 'o' :: 'l' :: 'b' :: 'a' :: 'r' :: '_' :: (n.data ++ '_' :: t.data) := by
  simp [toolbarKey, String.data_append]

theorem windowStateKey_data (n : String) :
    (windowStateKey n).data
      = 'w' :: 'i' :: 'n' :: 'd' :: 'o' :: 'w' :: 'S' :: 't' :: 'a' :: 't' :: 'e' :: '_' :: n.data := by
  simp [windowStateKey, String.data_append]

theorem dockKey_ne_toolbarKey (n t n₂ t₂ : String) : dockKey n t ≠ toolbarKey n₂ t₂ := by
  intro h
  have := congrArg String.data h
  rw [dockKey_data, toolbarKey_data] at this
  simp at this

theorem dockKey_ne_windowStateKey (n t n₂ : String) : dockKey n t ≠ windowStateKey n₂ := by
  intro h
  have := congrArg String.data h
  rw [dockKey_data, windowStateKey_data] at this
  simp at this

theorem toolbarKey_ne_windowStateKey (n t n₂ : String) : toolbarKey n t ≠ windowStateKey n₂ := by
  intro h
  have := congrArg String.data h
  rw [toolbarKey_data, windowStateKey_data] at this
  simp at this

theorem dockKey_title_inj (n t t₂ : String) (h : dockKey n t = dockKey n t₂) : t = t₂ := by
  have := congrArg String.data h
  rw [dockKey_data, dockKey_data] at this
  simp at this
  exact String.ext this

theorem toolbarKey_title_inj (n t t₂ : String) (h : toolbarKey n t = toolbarKey n t₂) :
    t = t₂ := by
  have := congrArg String.data h
  rw [toolbarKey_data, toolbarKey_data] at this
  simp at this
  exact String.ext this

theorem windowStateKey_inj (n n₂ : String) (h : windowStateKey n = windowStateKey n₂) :
    n = n₂ := by
  have := congrArg String.data h
  rw [windowStateKey_data, windowStateKey_data] at this
  simp at this
  exact String.ext this

/-- Two different names that give the same text `name_title`: one name is the other
followed by an underscore and some `c`, and the title that goes with the shorter name
is `c`, an underscore and the other title. -/
theorem name_title_collision (a b t t₂ : List Char) (hne : a ≠ b)
    (h : a ++ '_' :: t = b ++ '_' :: t₂) :
    (∃ c, b = a ++ '_' :: c ∧ t = c ++ '_' :: t₂) ∨
    (∃ c, a = b ++ '_' :: c ∧ t₂ = c ++ '_' :: t) := by
  rcases List.append_eq_append_iff.1 h with ⟨c, hb, hc⟩ | ⟨c, ha, hc⟩
  · cases c with
    | nil => exact absurd (by simpa using hb.symm) hne
    | cons x c =>
      simp only [List.cons_append, List.cons.injEq] at hc
      left
      refine ⟨c, ?_, hc.2⟩
      rw [hb, ← hc.1]
  · cases c with
    | nil => exact absurd (by simpa using ha) hne
    | cons x c =>
      simp only [List.cons_append, List.cons.injEq] at hc
      right
      refine ⟨c, ?_, hc.2⟩
      rw [ha, ← hc.1]

/-- Different names give different texts `name_title` when the names are separated or
the titles have no underscore. -/
theorem name_title_ne (a b t t₂ : String) (hne : a ≠ b)
    (hs : Separated a b ∨ ('_' ∉ t.data ∧ '_' ∉ t₂.data)) :
    a.data ++ '_' :: t.data ≠ b.data ++ '_' :: t₂.data := by
  intro h
  have hd : a.data ≠ b.data := fun e => hne (String.ext e)
  rcases name_title_collision _ _ _ _ hd h with ⟨c, hb, ht⟩ | ⟨c, ha, ht⟩
  · rcases hs with hs | hs
    · exact hs.1 ⟨c, by rw [hb]; simp⟩
    · exact hs.1 (by rw [ht]; simp)
  · rcases hs with hs | hs
    · exact hs.2 ⟨c, by rw [ha]; simp⟩
    · exact hs.2 (by rw [ht]; simp)

theorem dockKey_ne_of_separated (a b t t₂ : String) (hne : a ≠ b)
    (hs : Separated a b ∨ ('_' ∉ t.data ∧ '_' ∉ t₂.data)) :
    dockKey a t ≠ dockKey b t₂ := by
  intro h
  have := congrArg String.data h
  rw [dockKey_data, dockKey_data] at this
  simp only [List.cons.injEq, true_and] at this
  exact name_title_ne a b t t₂ hne hs this

theorem toolbarKey_ne_of_separated (a b t t₂ : String) (hne : a ≠ b)
    (hs : Separated a b ∨ ('_' ∉ t.data ∧ '_' ∉ t₂.data)) :
    toolbarKey a t ≠ toolbarKey b t₂ := by
  intro h
  have := congrArg String.data h
  rw [toolbarKey_data, toolbarKey_data] at this
  simp only [List.cons.injEq, true_and] at this
  exact name_title_ne a b t t₂ hne hs this

/-! ## Keys that the normalisation leaves alone -/

theorem normalizedFrom_of_no_slash (seen : Bool) (l : List Char) (h : '/' ∉ l) :
    normalizedFrom seen false l = l := by
  induction l generalizing seen with
  | nil => rfl
  | cons c cs ih =>
    have hc : c ≠ '/' := fun e => h (e ▸ List.mem_cons_self _ _)
    have hcs : '/' ∉ cs := fun e => h (List.mem_cons_of_mem _ e)
    simp [normalizedFrom, hc, ih true hcs]

/-- On a case-sensitive backend a key without `/` is its own normalised key. -/
theorem normalizedKey_of_no_slash (qt : Toolkit) (hfold : ∀ k, qt.keyFold k = k)
    (key : String) (h : '/' ∉ key.data) : normalizedKey qt key = key := by
  unfold normalizedKey slashNormalized
  rw [hfold, normalizedFrom_of_no_slash false key.data h]

theorem settingsKeys_no_slash (m : Mode) (h : SlashFree m) :
    ∀ k ∈ settingsKeys m, '/' ∉ k.data := by
  intro k hk
  simp only [settingsKeys, List.mem_cons, List.mem_append, List.mem_map] at hk
  rcases hk with rfl | ⟨d, hd, rfl⟩ | ⟨t, ht, rfl⟩
  · rw [windowStateKey_data]
    simpa using h.1
  · rw [dockKey_data]
    have := h.2 _ (List.mem_append_left _ (List.mem_map_of_mem _ hd))
    simp only [List.mem_cons, List.mem_append, not_or]
    refine ⟨by decide, by decide, by decide, by decide, by decide, h.1, by decide, this⟩
  · rw [toolbarKey_data]
    have := h.2 _ (List.mem_append_right _ (List.mem_map_of_mem _ ht))
    simp only [List.mem_cons, List.mem_append, not_or]
    refine ⟨by decide, by decide, by decide, by decide, by decide, by decide, by decide,
      by decide, h.1, by decide, this⟩

theorem map_normalizedKey_settingsKeys (qt : Toolkit) (hfold : ∀ k, qt.keyFold k = k)
    (m : Mode) (h : SlashFree m) :
    (settingsKeys m).map (normalizedKey qt) = settingsKeys m := by
  have : ∀ k ∈ settingsKeys m, normalizedKey qt k = id k := fun k hk =>
    normalizedKey_of_no_slash qt hfold k (settingsKeys_no_slash m h k hk)
  rw [List.map_congr_left this, List.map_id]

/-- On a case-sensitive backend, a mode without `/` in its name and titles, with
pairwise distinct dock titles and pairwise distinct toolbar titles, has pairwise
distinct normalised settings keys. -/
theorem keysDistinct_of_titles (qt : Toolkit) (hfold : ∀ k, qt.keyFold k = k) (m : Mode)
    (hslash : SlashFree m)
    (hdocks : (m.docks.map (fun d => d.windowTitle)).Nodup)
    (htoolbars : (m.toolbars.map (fun t => t.windowTitle)).Nodup) :
    KeysDistinct qt m := by
  unfold KeysDistinct
  rw [map_normalizedKey_settingsKeys qt hfold m hslash]
  unfold settingsKeys
  rw [List.nodup_cons, List.nodup_append]
  refine ⟨?_, ?_, ?_, ?_⟩
  · simp only [List.mem_append, List.mem_map, not_or, not_exists, not_and]
    exact ⟨fun d _ h => dockKey_ne_windowStateKey _ _ _ h,
      fun t _ h => toolbarKey_ne_windowStateKey _ _ _ h⟩
  · have : m.docks.map (fun d => dockKey m.name d.windowTitle)
        = (m.docks.map (fun d => d.windowTitle)).map (dockKey m.name) := by
      rw [List.map_map]; rfl
    rw [this]
    exact hdocks.map (fun a b h => dockKey_title_inj m.name a b h)
  · have : m.toolbars.map (fun t => toolbarKey m.name t.windowTitle)
        = (m.toolbars.map (fun t => t.windowTitle)).map (toolbarKey m.name) := by
      rw [List.map_map]; rfl
    rw [this]
    exact htoolbars.map (fun a b h => toolbarKey_title_inj m.name a b h)
  · intro k hd ht
    obtain ⟨d, _, rfl⟩ := List.mem_map.1 hd
    obtain ⟨t, _, h⟩ := List.mem_map.1 ht
    exact dockKey_ne_toolbarKey _ _ _ _ h.symm

/-- On a case-sensitive backend, two modes without `/` in their names and titles, with
different names that are separated or with titles free of underscores, have their
settings keys apart. -/
theorem keysApart_of_toldApart (qt : Toolkit) (hfold : ∀ k, qt.keyFold k = k) (a b : Mode)
    (ha : SlashFree a) (hb : SlashFree b) (hne : a.name ≠ b.name) (hs : ToldApart a b) :
    KeysApart qt a b := by
  intro k hk k₂ hk₂
  rw [normalizedKey_of_no_slash qt hfold k (settingsKeys_no_slash a ha k hk),
    normalizedKey_of_no_slash qt hfold k₂ (settingsKeys_no_slash b hb k₂ hk₂)]
  have hsep : ∀ t ∈ a.titles, ∀ t₂ ∈ b.titles,
      Separated a.name b.name ∨ ('_' ∉ t.data ∧ '_' ∉ t₂.data) := by
    intro t ht t₂ ht₂
    rcases hs with hs | hs
    · exact Or.inl hs
    · exact Or.inr ⟨hs t (List.mem_append_left _ ht), hs t₂ (List.mem_append_right _ ht₂)⟩
  simp only [settingsKeys, List.mem_cons, List.mem_append, List.mem_map] at hk hk₂
  rcases hk with rfl | ⟨d, hd, rfl⟩ | ⟨t, ht, rfl⟩ <;>
    rcases hk₂ with rfl | ⟨d₂, hd₂, rfl⟩ | ⟨t₂, ht₂, rfl⟩
  · exact fun h => hne (windowStateKey_inj _ _ h)
  · exact fun h => dockKey_ne_windowStateKey _ _ _ h.symm
  · exact fun h => toolbarKey_ne_windowStateKey _ _ _ h.symm
  · exact dockKey_ne_windowStateKey _ _ _
  · exact dockKey_ne_of_separated _ _ _ _ hne
      (hsep _ (List.mem_append_left _ (List.mem_map_of_mem _ hd)) _
        (List.mem_append_left _ (List.mem_map_of_mem _ hd₂)))
  · exact dockKey_ne_toolbarKey _ _ _ _
  · exact toolbarKey_ne_windowStateKey _ _ _
  · exact fun h => dockKey_ne_toolbarKey _ _ _ _ h.symm
  · exact toolbarKey_ne_of_separated _ _ _ _ hne
      (hsep _ (List.mem_append_right _ (List.mem_map_of_mem _ ht)) _
        (List.mem_append_right _ (List.mem_map_of_mem _ ht₂)))

/-- On a case-insensitive backend two docks whose titles differ only in letter case
share a key. -/
theorem registry_keys_collide : ¬ KeysDistinct registryToolkit caseMode := by
  decide

/-! ## What `activate` restores -/

theorem setHiddenFrom_titles (f : Nat → Bool) (i : Nat) (l : List QWidget) :
    (setHiddenFrom f i l).map (fun x => x.windowTitle) = l.map (fun x => x.windowTitle) := by
  induction l generalizing i with
  | nil => rfl
  | cons x xs ih => simp [setHiddenFrom, ih]

theorem setHiddenFrom_getElem? (f : Nat → Bool) (i : Nat) (l : List QWidget) (j : Nat) :
    (setHiddenFrom f i l)[j]? = l[j]?.map (fun x => { x with hidden := f (i + j) }) := by
  induction l generalizing i j with
  | nil => rfl
  | cons x xs ih =>
    cases j with
    | zero => simp [setHiddenFrom]
    | succ j =>
      simp only [setHiddenFrom, List.getElem?_cons_succ]
      rw [ih]
      have : i + 1 + j = i + (j + 1) := by omega
      rw [this]

theorem restoreVisibility_hidden (qt : Toolkit) (s : QSettings) (key : String) (x : QWidget) :
    (restoreVisibility qt s key x).hidden
      = (match QSettings.value qt s key with
         | some v => v.toBool
         | none => x.hidden) := by
  unfold restoreVisibility QSettings.valueD
  cases h : QSettings.value qt s key with
  | none =>
    cases hx : x.hidden <;> simp [QWidget.isHidden, QVariant.toBool, QWidget.hide, QWidget.show, hx]
  | some v =>
    cases hv : v.toBool <;> simp [QWidget.hide, QWidget.show, hv]

theorem restoreVisibility_title (qt : Toolkit) (s : QSettings) (key : String) (x : QWidget) :
    (restoreVisibility qt s key x).windowTitle = x.windowTitle := by
  unfold restoreVisibility
  simp only []
  split <;> rfl

/-- The dock at each position after `activate`: the dock of that position, with the
hidden flag left by `restoreState`, put through `restoreVisibility`. -/
theorem activate_docks_getElem? (qt : Toolkit) (m : Mode) (w : World) (i : Nat) :
    (m.activate qt w).1.docks[i]? = m.docks[i]?.map (fun d =>
      restoreVisibility qt w.settings (dockKey m.name d.windowTitle)
        { d with hidden := (qt.restoreDock
            (toByteArray (QSettings.value qt w.settings (windowStateKey m.name)))
            (m.docks.map QWidget.show) (m.toolbars.map QWidget.show) i) }) := by
  simp only [Mode.activate, restoreState, List.getElem?_map, setHiddenFrom_getElem?,
    Option.map_map]
  cases m.docks[i]? with
  | none => rfl
  | some d => simp [QWidget.show]

theorem activate_toolbars_getElem? (qt : Toolkit) (m : Mode) (w : World) (i : Nat) :
    (m.activate qt w).1.toolbars[i]? = m.toolbars[i]?.map (fun t =>
      restoreVisibility qt w.settings (toolbarKey m.name t.windowTitle)
        { t with hidden := (qt.restoreToolbar
            (toByteArray (QSettings.value qt w.settings (windowStateKey m.name)))
            (m.docks.map QWidget.show) (m.toolbars.map QWidget.show) i) }) := by
  simp only [Mode.activate, restoreState, List.getElem?_map, setHiddenFrom_getElem?,
    Option.map_map]
  cases m.toolbars[i]? with
  | none => rfl
  | some d => simp [QWidget.show]

/-- Restoring from settings that hold, under the key of every widget of `l`, the hidden
flag of that widget gives back the hidden flags of `l`, whatever the flags before. -/
theorem restore_saved_hidden (qt : Toolkit) (s : QSettings) (key : String → String) (l l₂ : List QWidget)
    (f : Nat → QWidget → QWidget)
    (htitles : l₂.map (fun x => x.windowTitle) = l.map (fun x => x.windowTitle))
    (hsaved : ∀ x ∈ l, QSettings.value qt s (key x.windowTitle) = some (QVariant.bool x.hidden))
    (r : List QWidget)
    (hr : ∀ i, r[i]? = l₂[i]?.map (fun x => restoreVisibility qt s (key x.windowTitle) (f i x))) :
    r.map (fun x => x.hidden) = l.map (fun x => x.hidden) := by
  apply List.ext_getElem?
  intro i
  have ht := congrArg (fun t => t[i]?) htitles
  simp only [List.getElem?_map] at ht ⊢
  rw [hr i]
  cases h₂ : l₂[i]? with
  | none =>
    cases h₁ : l[i]? with
    | none => rfl
    | some x => rw [h₂, h₁] at ht; simp at ht
  | some y =>
    cases h₁ : l[i]? with
    | none => rw [h₂, h₁] at ht; simp at ht
    | some x =>
      rw [h₂, h₁] at ht
      simp only [Option.map_some', Option.some.injEq] at ht ⊢
      have hx : x ∈ l := List.getElem?_mem h₁
      rw [restoreVisibility_hidden, ht, hsaved x hx]
      rfl

/-- Activating a mode on the settings that `deactivate()` of a mode with the same name and
the same dock titles left gives back the hidden flags of the docks, when the settings
keys of the mode have pairwise distinct normalised keys. -/
theorem activate_after_deactivate_docks (qt : Toolkit) (m m₂ : Mode) (w w₂ : World)
    (hkeys : KeysDistinct qt m)
    (hname : m₂.name = m.name)
    (hd : m₂.docks.map (fun d => d.windowTitle) = m.docks.map (fun d => d.windowTitle))
    (hsettings : w₂.settings = (m.deactivate qt w).2.settings) :
    (m₂.activate qt w₂).1.docks.map (fun d => d.hidden) = m.docks.map (fun d => d.hidden) := by
  have hs : w₂.settings = saveLayout qt m w := hsettings
  refine restore_saved_hidden qt w₂.settings (dockKey m.name) m.docks m₂.docks
    (fun i d => { d with hidden := (qt.restoreDock
      (toByteArray (QSettings.value qt w₂.settings (windowStateKey m₂.name)))
      (m₂.docks.map QWidget.show) (m₂.toolbars.map QWidget.show) i) })
    hd ?_ _ ?_
  · intro x hx
    rw [hs]
    exact value_saveLayout_dock qt m w hkeys x hx
  · intro i
    rw [activate_docks_getElem?, hname]

/-- The same for the toolbars. -/
theorem activate_after_deactivate_toolbars (qt : Toolkit) (m m₂ : Mode) (w w₂ : World)
    (hkeys : KeysDistinct qt m)
    (hname : m₂.name = m.name)
    (ht : m₂.toolbars.map (fun t => t.windowTitle) = m.toolbars.map (fun t => t.windowTitle))
    (hsettings : w₂.settings = (m.deactivate qt w).2.settings) :
    (m₂.activate qt w₂).1.toolbars.map (fun t => t.hidden)
      = m.toolbars.map (fun t => t.hidden) := by
  have hs : w₂.settings = saveLayout qt m w := hsettings
  refine restore_saved_hidden qt w₂.settings (toolbarKey m.name) m.toolbars m₂.toolbars
    (fun i d => { d with hidden := (qt.restoreToolbar
      (toByteArray (QSettings.value qt w₂.settings (windowStateKey m₂.name)))
      (m₂.docks.map QWidget.show) (m₂.toolbars.map QWidget.show) i) })
    ht ?_ _ ?_
  · intro x hx
    rw [hs]
    exact value_saveLayout_toolbar qt m w hkeys x hx
  · intro i
    rw [activate_toolbars_getElem?, hname]

/-! ## Menus -/

theorem mem_removeAction (menu : QMenu) (a x : Nat) :
    x ∈ QMenu.removeAction menu a ↔ x ∈ menu ∧ x ≠ a := by
  simp [QMenu.removeAction]

theorem mem_addAction (menu : QMenu) (a x : Nat) :
    x ∈ QMenu.addAction menu a ↔ x ∈ menu ∨ x = a := by
  simp only [QMenu.addAction, List.mem_append, mem_removeAction, List.mem_singleton]
  by_cases h : x = a <;> simp [h]

theorem mem_foldl_removeAction (l : List QWidget) (menu : QMenu) (x : Nat) :
    x ∈ l.foldl (fun menu t => QMenu.removeAction menu t.toggleViewAction) menu
      ↔ x ∈ menu ∧ ∀ t ∈ l, x ≠ t.toggleViewAction := by
  induction l generalizing menu with
  | nil => simp
  | cons t ts ih =>
    simp only [List.foldl_cons, ih, mem_removeAction, List.mem_cons, forall_eq_or_imp]
    tauto

theorem mem_foldl_addAction (l : List QWidget) (menu : QMenu) (x : Nat) :
    x ∈ l.foldl (fun menu t => QMenu.addAction menu t.toggleViewAction) menu
      ↔ x ∈ menu ∨ ∃ t ∈ l, x = t.toggleViewAction := by
  induction l generalizing menu with
  | nil => simp
  | cons t ts ih =>
    simp only [List.foldl_cons, ih, mem_addAction, List.mem_cons, exists_eq_or_imp]
    tauto

/-- C3. Deactivation hides all mode specific GUI elements: after `deactivate()` the
mode is inactive; its toolbars, docks and actions are the same widgets and actions as
before, every toolbar and dock hidden and every action invisible; no toggle-view action
of a toolbar is left in the Toolbars menu and none of a dock in the Docks menu; and
`setIdle()` is called on the device exactly when the window has one. -/
theorem deactivate_hides_mode (qt : Toolkit) (m : Mode) (w : World) :
    (m.deactivate qt w).1.isActive = false ∧
    (m.deactivate qt w).1.toolbars.map (fun t => t.windowTitle)
      = m.toolbars.map (fun t => t.windowTitle) ∧
    (∀ t ∈ (m.deactivate qt w).1.toolbars, t.isHidden = true) ∧
    (m.deactivate qt w).1.docks.map (fun d => d.windowTitle)
      = m.docks.map (fun d => d.windowTitle) ∧
    (∀ d ∈ (m.deactivate qt w).1.docks, d.isHidden = true) ∧
    (m.deactivate qt w).1.actions.map (fun a => a.handle) = m.actions.map (fun a => a.handle) ∧
    (∀ a ∈ (m.deactivate qt w).1.actions, a.visible = false) ∧
    (∀ t ∈ m.toolbars, t.toggleViewAction ∉ (m.deactivate qt w).2.window.ui.menuToolbars) ∧
    (∀ d ∈ m.docks, d.toggleViewAction ∉ (m.deactivate qt w).2.window.ui.menuDocks) ∧
    (∀ dev, w.window.device = some dev →
      (m.deactivate qt w).2.log = w.log ++ [Event.setIdle dev]) ∧
    (w.window.device = none → (m.deactivate qt w).2.log = w.log) := by
  refine ⟨rfl, ?_, ?_, ?_, ?_, ?_, ?_, ?_, ?_, ?_, ?_⟩
  · simp [Mode.deactivate, QWidget.hide]
  · intro t ht
    simp only [Mode.deactivate, List.mem_map] at ht
    obtain ⟨x, _, rfl⟩ := ht
    rfl
  · simp [Mode.deactivate, QWidget.hide]
  · intro d hd
    simp only [Mode.deactivate, List.mem_map] at hd
    obtain ⟨x, _, rfl⟩ := hd
    rfl
  · simp [Mode.deactivate, QAction.setVisible]
  · intro a ha
    simp only [Mode.deactivate, List.mem_map] at ha
    obtain ⟨x, _, rfl⟩ := ha
    rfl
  · intro t ht hmem
    simp only [Mode.deactivate] at hmem
    exact ((mem_foldl_removeAction _ _ _).1 hmem).2 t ht rfl
  · intro d hd hmem
    simp only [Mode.deactivate] at hmem
    exact ((mem_foldl_removeAction _ _ _).1 hmem).2 d hd rfl
  · intro dev hdev
    simp [Mode.deactivate, hdev]
  · intro hdev
    simp [Mode.deactivate, hdev]

theorem activate_actions (qt : Toolkit) (m : Mode) (w : World) :
    (m.activate qt w).1.actions = m.actions.map (QAction.setVisible true) := rfl

/-- C6, amended. Activation shows the mode: for a mode whose central widget `c` is set and
is a page of the window's central stack (as `finalize` leaves it), after `activate()`
the mode is active; its actions are the same actions, all visible; the toggle-view
action of every toolbar is in the Toolbars menu and that of every dock in the Docks
menu; the current widget of the central stack is the mode's central widget; at every
position the dock (toolbar) is the same widget as before, hidden exactly when the
value stored under its `dock_` (`toolbar_`) key converts to true and, when no value is
stored, when `restoreState` left it hidden; the settings are not written;
`initializeDevice()` is called exactly when the window has a device, and then the
stored status-bar message is emitted. -/
theorem activate_shows_mode (qt : Toolkit) (m : Mode) (w : World) (c : Nat)
    (hc : m.central = some c) (hpage : c ∈ w.window.central.widgets) :
    (m.activate qt w).1.isActive = true ∧
    (m.activate qt w).1.actions.map (fun a => a.handle) = m.actions.map (fun a => a.handle) ∧
    (∀ a ∈ (m.activate qt w).1.actions, a.visible = true) ∧
    (∀ t ∈ m.toolbars, t.toggleViewAction ∈ (m.activate qt w).2.window.ui.menuToolbars) ∧
    (∀ d ∈ m.docks, d.toggleViewAction ∈ (m.activate qt w).2.window.ui.menuDocks) ∧
    (m.activate qt w).2.window.central.current = m.central ∧
    (m.activate qt w).2.window.central.widgets = w.window.central.widgets ∧
    (∀ i : Nat, ((m.activate qt w).1.docks[i]?).map (fun d => (d.windowTitle, d.toggleViewAction))
      = (m.docks[i]?).map (fun d => (d.windowTitle, d.toggleViewAction))) ∧
    (∀ (i : Nat) (d₂ : QWidget), (m.activate qt w).1.docks[i]? = some d₂ →
      d₂.isHidden =
        (match QSettings.value qt w.settings (dockKey m.name d₂.windowTitle) with
         | some v => v.toBool
         | none => qt.restoreDock
            (toByteArray (QSettings.value qt w.settings (windowStateKey m.name)))
            (m.docks.map QWidget.show) (m.toolbars.map QWidget.show) i)) ∧
    (∀ i : Nat, ((m.activate qt w).1.toolbars[i]?).map (fun t => (t.windowTitle, t.toggleViewAction))
      = (m.toolbars[i]?).map (fun t => (t.windowTitle, t.toggleViewAction))) ∧
    (∀ (i : Nat) (t₂ : QWidget), (m.activate qt w).1.toolbars[i]? = some t₂ →
      t₂.isHidden =
        (match QSettings.value qt w.settings (toolbarKey m.name t₂.windowTitle) with
         | some v => v.toBool
         | none => qt.restoreToolbar
            (toByteArray (QSettings.value qt w.settings (windowStateKey m.name)))
            (m.docks.map QWidget.show) (m.toolbars.map QWidget.show) i)) ∧
    (m.activate qt w).2.settings = w.settings ∧
    (m.activate qt w).2.log
      = w.log ++ (match w.window.device with
                  | some _ => [Event.initializeDevice]
                  | none => []) ++ [Event.statusbarMessage m.statusbarMsg] := by
  refine ⟨rfl, ?_, ?_, ?_, ?_, ?_, ?_, ?_, ?_, ?_, ?_, rfl, ?_⟩
  · simp [activate_actions, QAction.setVisible]
  · intro a ha
    rw [activate_actions, List.mem_map] at ha
    obtain ⟨x, _, rfl⟩ := ha
    rfl
  · intro t ht
    exact (mem_foldl_addAction _ _ _).2 (Or.inr ⟨t, ht, rfl⟩)
  · intro d hd
    exact (mem_foldl_addAction _ _ _).2 (Or.inr ⟨d, hd, rfl⟩)
  · simp [Mode.activate, QStackedWidget.setCurrentWidget, hc, hpage]
  · simp [Mode.activate, QStackedWidget.setCurrentWidget, hc, hpage]
  · intro i
    rw [activate_docks_getElem?]
    cases m.docks[i]? with
    | none => rfl
    | some d =>
      simp only [Option.map_some', restoreVisibility_title]
      unfold restoreVisibility
      simp only []
      split <;> rfl
  · intro i d₂ h
    rw [activate_docks_getElem?] at h
    cases hd : m.docks[i]? with
    | none => rw [hd] at h; simp at h
    | some d =>
      rw [hd] at h
      simp only [Option.map_some', Option.some.injEq] at h
      subst h
      rw [restoreVisibility_title]
      exact restoreVisibility_hidden _ _ _ _
  · intro i
    rw [activate_toolbars_getElem?]
    cases m.toolbars[i]? with
    | none => rfl
    | some d =>
      simp only [Option.map_some', restoreVisibility_title]
      unfold restoreVisibility
      simp only []
      split <;> rfl
  · intro i t₂ h
    rw [activate_toolbars_getElem?] at h
    cases hd : m.toolbars[i]? with
    | none => rw [hd] at h; simp at h
    | some d =>
      rw [hd] at h
      simp only [Option.map_some', Option.some.injEq] at h
      subst h
      rw [restoreVisibility_title]
      exact restoreVisibility_hidden _ _ _ _
  · simp only [Mode.activate]
    cases w.window.device <;> simp

/-- Witness of C6 on `exampleMode`, whose central widget is page `1` of the stack. -/
theorem activate_shows_mode_witness :
    exampleMode.central = some 1 ∧
    1 ∈ exampleWorld.window.central.widgets ∧
    (exampleMode.activate exampleToolkit exampleWorld).1.isActive = true ∧
    (exampleMode.activate exampleToolkit exampleWorld).2.window.central.current = some 1 ∧
    (exampleMode.activate exampleToolkit exampleWorld).2.log
      = [Event.initializeDevice, Event.statusbarMessage "ready"] :=
  ⟨rfl, by decide,
    (activate_shows_mode exampleToolkit exampleMode exampleWorld 1 rfl (by decide)).1,
    (activate_shows_mode exampleToolkit exampleMode exampleWorld 1 rfl (by decide)).2.2.2.2.2.1,
    (activate_shows_mode exampleToolkit exampleMode exampleWorld 1 rfl
      (by decide)).2.2.2.2.2.2.2.2.2.2.2.2⟩

/-- C6 as stated fails: a mode in the state its constructor leaves, with no central widget
yet, is activated in a window whose stack shows page `1`; `setCurrentWidget(nullptr)`
changes nothing, page `1` stays the current widget, and it is not the mode's central
widget.  The same happens for a central widget that was never added to the stack. -/
theorem activate_current_widget_counterexample :
    ((Mode.init "Spectrum Analyzer").activate exampleToolkit exampleWorld).1.central = none ∧
    ((Mode.init "Spectrum Analyzer").activate exampleToolkit
      exampleWorld).2.window.central.current = some 1 ∧
    ({ exampleMode with central := some 5 }.activate exampleToolkit exampleWorld).1.central
      = some 5 ∧
    ({ exampleMode with central := some 5 }.activate exampleToolkit
      exampleWorld).2.window.central.current = some 1 := by
  decide

/-- After `finalize(c)` the central widget of the mode is `c` and `c` is a page of the
central stack, which is what `activate()` needs to show it. -/
theorem finalize_central_page (m : Mode) (c : Nat) (w : World) :
    (m.finalize c w).1.central = some c ∧ c ∈ (m.finalize c w).2.window.central.widgets := by
  simp [Mode.finalize, QStackedWidget.addWidget]

/-- C8. Method `finalize(w)` names and hides all mode specific GUI elements: afterwards
the mode's central widget is `w`; the docks, toolbars and actions are the same as
before, every dock and toolbar with its window title followed by the mode name as
object name, every dock and toolbar hidden and every action invisible; `isActive` and
the name are unchanged. -/
theorem finalize_names_and_hides (m : Mode) (c : Nat) (w : World) :
    (m.finalize c w).1.central = some c ∧
    (m.finalize c w).1.docks.map (fun d => (d.windowTitle, d.toggleViewAction))
      = m.docks.map (fun d => (d.windowTitle, d.toggleViewAction)) ∧
    (m.finalize c w).1.toolbars.map (fun t => (t.windowTitle, t.toggleViewAction))
      = m.toolbars.map (fun t => (t.windowTitle, t.toggleViewAction)) ∧
    (∀ d ∈ (m.finalize c w).1.docks,
      d.objectName = d.windowTitle ++ m.name ∧ d.isHidden = true) ∧
    (∀ t ∈ (m.finalize c w).1.toolbars,
      t.objectName = t.windowTitle ++ m.name ∧ t.isHidden = true) ∧
    (m.finalize c w).1.actions.map (fun a => a.handle) = m.actions.map (fun a => a.handle) ∧
    (∀ a ∈ (m.finalize c w).1.actions, a.visible = false) ∧
    (m.finalize c w).1.isActive = m.isActive ∧
    (m.finalize c w).1.name = m.name := by
  refine ⟨rfl, ?_, ?_, ?_, ?_, ?_, ?_, rfl, rfl⟩
  · simp [Mode.finalize, QWidget.hide, QWidget.setObjectName]
  · simp [Mode.finalize, QWidget.hide, QWidget.setObjectName]
  · intro d hd
    simp only [Mode.finalize, List.mem_map] at hd
    obtain ⟨x, ⟨y, _, rfl⟩, rfl⟩ := hd
    exact ⟨rfl, rfl⟩
  · intro t ht
    simp only [Mode.finalize, List.mem_map] at ht
    obtain ⟨x, ⟨y, _, rfl⟩, rfl⟩ := ht
    exact ⟨rfl, rfl⟩
  · simp [Mode.finalize, QAction.setVisible]
  · intro a ha
    simp only [Mode.finalize, List.mem_map] at ha
    obtain ⟨x, _, rfl⟩ := ha
    rfl

/-! ## Name/type mapping -/

theorem TypeFromName_eq (s : String) :
    TypeFromName s =
      if s = "Vector Network Analyzer" then ModeType.VNA
      else if s = "Signal Generator" then ModeType.SG
      else if s = "Spectrum Analyzer" then ModeType.SA
      else ModeType.Last := by
  have hr : List.range ModeType.Last = [0, 1, 2] := by decide
  simp [TypeFromName, hr, TypeFromName.loop, TypeToName]

/-- C4. Name/type mapping is a faithful round trip: for every string `s` and every type
`t` among `VNA`, `SG` and `SA`, `TypeFromName(s) = t` if and only if
`s = TypeToName(t)`; hence `TypeFromName(TypeToName(t)) = t` and the three names are
pairwise distinct; for every other string, `Invalid` and the empty string among them,
`TypeFromName` returns `Type::Last`. -/
theorem type_name_round_trip :
    (∀ (s : String) (t : ModeType), t ∈ [ModeType.VNA, ModeType.SG, ModeType.SA] →
      (TypeFromName s = t ↔ s = TypeToName t)) ∧
    (∀ t : ModeType, t ∈ [ModeType.VNA, ModeType.SG, ModeType.SA] →
      TypeFromName (TypeToName t) = t) ∧
    ([ModeType.VNA, ModeType.SG, ModeType.SA].map TypeToName).Nodup ∧
    (∀ s : String, (∀ t ∈ [ModeType.VNA, ModeType.SG, ModeType.SA], s ≠ TypeToName t) →
      TypeFromName s = ModeType.Last) ∧
    TypeFromName "Invalid" = ModeType.Last ∧
    TypeFromName "" = ModeType.Last := by
  have key : ∀ (s : String) (t : ModeType), t ∈ [ModeType.VNA, ModeType.SG, ModeType.SA] →
      (TypeFromName s = t ↔ s = TypeToName t) := by
    intro s t ht
    rw [TypeFromName_eq]
    simp only [List.mem_cons, List.mem_singleton, List.not_mem_nil, or_false] at ht
    rcases ht with rfl | rfl | rfl
    · by_cases h₁ : s = "Vector Network Analyzer"
      · simp [h₁, TypeToName]
      · by_cases h₂ : s = "Signal Generator"
        · simp [h₂, TypeToName]
        · by_cases h₃ : s = "Spectrum Analyzer" <;> simp [h₁, h₂, h₃, TypeToName]
    · by_cases h₁ : s = "Vector Network Analyzer"
      · simp [h₁, TypeToName]
      · by_cases h₂ : s = "Signal Generator"
        · simp [h₂, TypeToName]
        · by_cases h₃ : s = "Spectrum Analyzer" <;> simp [h₁, h₂, h₃, TypeToName]
    · by_cases h₁ : s = "Vector Network Analyzer"
      · simp [h₁, TypeToName]
      · by_cases h₂ : s = "Signal Generator"
        · simp [h₂, TypeToName]
        · by_cases h₃ : s = "Spectrum Analyzer" <;> simp [h₁, h₂, h₃, TypeToName]
  refine ⟨key, fun t ht => (key _ t ht).2 rfl, by decide, ?_, by decide, by decide⟩
  intro s hs
  have h₁ := hs ModeType.VNA (by simp)
  have h₂ := hs ModeType.SG (by simp)
  have h₃ := hs ModeType.SA (by simp)
  rw [TypeFromName_eq]
  simp only [TypeToName] at h₁ h₂ h₃
  simp at h₁ h₂ h₃
  simp [h₁, h₂, h₃]

/-! ## Screenshot export -/

theorem endsWith_iff (s e : String) : endsWith s e = true ↔ e.data <:+ s.data := by
  simp [endsWith]

theorem endsWith_append (s e : String) : endsWith (s ++ e) e = true := by
  rw [endsWith_iff, String.data_append]
  exact List.suffix_append _ _

/-- C9. Screenshot file-name extension: the file name used for export is `f` itself when
`f` already ends with the string `e`, and `f + "." + e` otherwise; in both cases the
result ends with `e`, and applying the rule to the result changes nothing.  This holds
for every file name `f` and every extension `e`, in particular for a non-empty `f` and
`e` among `png`, `svg`. -/
theorem export_name_extension (f e : String) :
    (endsWith f e = true → exportName f e = f) ∧
    (endsWith f e = false → exportName f e = f ++ "." ++ e) ∧
    endsWith (exportName f e) e = true ∧
    exportName (exportName f e) e = exportName f e := by
  have h₁ : endsWith f e = true → exportName f e = f := by
    intro h; simp [exportName, h]
  have h₂ : endsWith f e = false → exportName f e = f ++ "." ++ e := by
    intro h; simp [exportName, h, String.append_assoc]
  have h₃ : endsWith (exportName f e) e = true := by
    cases h : endsWith f e with
    | true => rw [h₁ h]; exact h
    | false => rw [h₂ h]; exact endsWith_append _ _
  refine ⟨h₁, h₂, h₃, ?_⟩
  generalize exportName f e = g at h₃
  simp [exportName, h₃]

theorem qBound_cases (x : Int) : qBound 0 x 1 = 0 ∨ qBound 0 x 1 = 1 := by
  unfold qBound
  by_cases h : x ≤ 0
  · left
    have hx : x ≤ 1 := by omega
    rw [min_eq_right hx, max_eq_left h]
  · right
    have hx : 1 ≤ x := by omega
    rw [min_eq_left hx]
    decide

/-- The dialog always gets one of the offered filters as the pre-selected one. -/
theorem preselectedFilter_total (settings : UISettings) :
    ∃ f, preselectedFilter settings = some f ∧ f ∈ filters := by
  unfold preselectedFilter
  have hl : ((filters.length : Int) - 1) = 1 := by decide
  simp only [hl]
  rcases qBound_cases settings.saveImageFilterIndex with h | h <;> rw [h]
  · exact ⟨"PNG image files (*.png)", by decide, by decide⟩
  · exact ⟨"SVG image files (*.svg)", by decide, by decide⟩

/-- C2. Empty file selection silently aborts: for every stored preference state the dialog
is asked, and when it answers with an empty file name `saveSreenshot()` returns with
the whole state as it was: `Paths.image` and `saveImageFilterIndex` unchanged and no
export event. -/
theorem empty_selection_aborts (qt : Toolkit) (m : Mode) (w : World) :
    ∃ r, askFileName qt w = some r ∧
      (r.filename = "" → m.saveSreenshot qt w = some w) := by
  obtain ⟨f, hf, _⟩ := preselectedFilter_total w.prefs
  refine ⟨qt.getSaveFileName w.prefs.pathsImage (";;".intercalate filters) f, ?_, ?_⟩
  · simp [askFileName, hf]
  · intro h
    simp [Mode.saveSreenshot, askFileName, hf, h]

/-- Witness of C2: the dialog is aborted on `exampleWorld`, and `saveSreenshot()` returns
the world as it was. -/
theorem empty_selection_aborts_witness :
    askFileName abortingToolkit exampleWorld
      = some { filename := "", selectedFilter := "PNG image files (*.png)" } ∧
    exampleMode.saveSreenshot abortingToolkit exampleWorld = some exampleWorld := by
  have ha : askFileName abortingToolkit exampleWorld
      = some { filename := "", selectedFilter := "PNG image files (*.png)" } := by decide
  refine ⟨ha, ?_⟩
  obtain ⟨r, hr, h⟩ := empty_selection_aborts abortingToolkit exampleMode exampleWorld
  rw [ha] at hr
  have hr₂ := Option.some.inj hr
  subst hr₂
  exact h rfl

/-- For modes whose settings keys are apart, `deactivate()` of mode `a` writes none of the
keys that `activate()` of mode `b` reads. -/
theorem deactivate_frame (qt : Toolkit) (a b : Mode) (w : World)
    (hs : KeysApart qt a b) (key : String) (hkey : key ∈ settingsKeys b) :
    QSettings.value qt (a.deactivate qt w).2.settings key = QSettings.value qt w.settings key :=
  value_saveLayout_frame qt a w key (fun k hk e => hs k hk key hkey e.symm)

theorem settingsKeys_activate (qt : Toolkit) (m : Mode) (w : World) :
    settingsKeys (m.activate qt w).1 = settingsKeys m := by
  simp only [settingsKeys, Mode.activate, restoreState, List.map_map]
  have h : ∀ (key : String → String),
      ((fun d : QWidget => key d.windowTitle) ∘
          fun d => restoreVisibility qt w.settings (key d.windowTitle) d)
        = fun d => key d.windowTitle := by
    intro key
    funext d
    simp only [Function.comp, restoreVisibility_title]
  have hset : ∀ (key : String → String) (f : Nat → Bool) (i : Nat) (l : List QWidget),
      (setHiddenFrom f i l).map (fun d => key d.windowTitle)
        = l.map (fun d => key d.windowTitle) := by
    intro key f i l
    induction l generalizing i with
    | nil => rfl
    | cons x xs ih => simp [setHiddenFrom, ih]
  rw [h (dockKey m.name), h (toolbarKey m.name), hset, hset]
  simp [QWidget.show, Function.comp_def]

theorem settingsKeys_deactivate (qt : Toolkit) (m : Mode) (w : World) :
    settingsKeys (m.deactivate qt w).1 = settingsKeys m := by
  simp [settingsKeys, Mode.deactivate, QWidget.hide, Function.comp_def]

theorem keysApart_activate (qt : Toolkit) (a b : Mode) (w : World) (hs : KeysApart qt a b) :
    KeysApart qt (a.activate qt w).1 b := by
  unfold KeysApart at hs ⊢
  rw [settingsKeys_activate]
  exact hs

theorem setHiddenFrom_mem (f : Nat → Bool) (i : Nat) (l : List QWidget) (x : QWidget)
    (hx : x ∈ setHiddenFrom f i l) : ∃ y ∈ l, x.windowTitle = y.windowTitle := by
  induction l generalizing i with
  | nil => cases hx
  | cons y ys ih =>
    simp only [setHiddenFrom, List.mem_cons] at hx
    rcases hx with rfl | hx
    · exact ⟨y, List.mem_cons_self _ _, rfl⟩
    · obtain ⟨z, hz, hzt⟩ := ih _ hx
      exact ⟨z, List.mem_cons_of_mem _ hz, hzt⟩

theorem restoreVisibility_congr (qt : Toolkit) (s s₂ : QSettings) (key : String) (x : QWidget)
    (h : QSettings.value qt s key = QSettings.value qt s₂ key) :
    restoreVisibility qt s key x = restoreVisibility qt s₂ key x := by
  simp only [restoreVisibility, QSettings.valueD, h]

/-- The mode that `activate()` produces depends on the settings only through the values
of the settings keys of the mode. -/
theorem activate_congr (qt : Toolkit) (m : Mode) (w w₂ : World)
    (h : ∀ key ∈ settingsKeys m,
      QSettings.value qt w.settings key = QSettings.value qt w₂.settings key) :
    (m.activate qt w).1 = (m.activate qt w₂).1 := by
  have hw : QSettings.value qt w.settings (windowStateKey m.name)
      = QSettings.value qt w₂.settings (windowStateKey m.name) :=
    h _ (List.mem_cons_self _ _)
  have hd : ∀ d ∈ m.docks, QSettings.value qt w.settings (dockKey m.name d.windowTitle)
      = QSettings.value qt w₂.settings (dockKey m.name d.windowTitle) := by
    intro d hd
    apply h
    simp only [settingsKeys, List.mem_cons, List.mem_append, List.mem_map]
    exact Or.inr (Or.inl ⟨d, hd, rfl⟩)
  have ht : ∀ t ∈ m.toolbars, QSettings.value qt w.settings (toolbarKey m.name t.windowTitle)
      = QSettings.value qt w₂.settings (toolbarKey m.name t.windowTitle) := by
    intro t ht
    apply h
    simp only [settingsKeys, List.mem_cons, List.mem_append, List.mem_map]
    exact Or.inr (Or.inr ⟨t, ht, rfl⟩)
  simp only [Mode.activate, restoreState, hw]
  congr 1
  · apply List.map_congr_left
    intro x hx
    obtain ⟨y, hy, hyt⟩ := setHiddenFrom_mem _ _ _ x hx
    obtain ⟨z, hz, rfl⟩ := List.mem_map.1 hy
    have : x.windowTitle = z.windowTitle := hyt
    rw [this]
    exact restoreVisibility_congr _ _ _ _ _ (hd z hz)
  · apply List.map_congr_left
    intro x hx
    obtain ⟨y, hy, hyt⟩ := setHiddenFrom_mem _ _ _ x hx
    obtain ⟨z, hz, rfl⟩ := List.mem_map.1 hy
    have : x.windowTitle = z.windowTitle := hyt
    rw [this]
    exact restoreVisibility_congr _ _ _ _ _ (ht z hz)

/-! ## The claims on the persistence of the layout -/

/-- C1 as stated fails: the docks of `slashMode` are titled `X` and `X/`, two distinct
window titles, but the store keeps both `dock_M_X` and `dock_M_X/` under the normalised
key `dock_M_X`.  `deactivate()` writes the flag of the second dock over that of the
first, and `activate()` shows the first dock, which was hidden before. -/
theorem round_trip_counterexample :
    (slashMode.docks.map (fun d => d.windowTitle)).Nodup ∧
    (slashMode.toolbars.map (fun t => t.windowTitle)).Nodup ∧
    slashMode.docks.map (fun d => d.isHidden) = [true, false] ∧
    ((slashMode.deactivate exampleToolkit exampleWorld).1.activate exampleToolkit
        (slashMode.deactivate exampleToolkit exampleWorld).2).1.docks.map (fun d => d.isHidden)
      = [false, false] := by
  decide

/-- C1, amended. Settings round trip: for a mode whose settings keys (the `dock_` key of
every dock, the `toolbar_` key of every toolbar and the `windowState_` key) are
pairwise distinct after the key normalisation of the settings store, `deactivate()`
followed by `activate()` leaves every dock and every toolbar hidden exactly when it
was hidden right before `deactivate()`.  Between the two calls the mode keeps its name
and its widgets (their hidden flags may change at will) and the settings store is not
written; nothing is assumed on what `restoreState` does. -/
theorem deactivate_activate_round_trip (qt : Toolkit) (m m₂ : Mode) (w w₂ : World)
    (hkeys : KeysDistinct qt m)
    (hname : m₂.name = m.name)
    (hd : m₂.docks.map (fun d => d.windowTitle) = m.docks.map (fun d => d.windowTitle))
    (ht : m₂.toolbars.map (fun t => t.windowTitle) = m.toolbars.map (fun t => t.windowTitle))
    (hsettings : w₂.settings = (m.deactivate qt w).2.settings) :
    (m₂.activate qt w₂).1.docks.map (fun d => d.isHidden) = m.docks.map (fun d => d.isHidden) ∧
    (m₂.activate qt w₂).1.toolbars.map (fun t => t.isHidden)
      = m.toolbars.map (fun t => t.isHidden) :=
  ⟨activate_after_deactivate_docks qt m m₂ w w₂ hkeys hname hd hsettings,
    activate_after_deactivate_toolbars qt m m₂ w w₂ hkeys hname ht hsettings⟩

/-- Witness of C1 on `exampleMode`: `activate()` right after `deactivate()`, with a
`restoreState` that hides every dock and shows every toolbar. -/
theorem deactivate_activate_round_trip_witness :
    KeysDistinct exampleToolkit exampleMode ∧
    (((exampleMode.deactivate exampleToolkit exampleWorld).1.activate exampleToolkit
        (exampleMode.deactivate exampleToolkit exampleWorld).2).1.docks.map (fun d => d.isHidden)
      = [false, true]) ∧
    (((exampleMode.deactivate exampleToolkit exampleWorld).1.activate exampleToolkit
        (exampleMode.deactivate exampleToolkit exampleWorld).2).1.toolbars.map
          (fun t => t.isHidden)
      = [true, false]) :=
  ⟨by decide,
    deactivate_activate_round_trip exampleToolkit exampleMode
      (exampleMode.deactivate exampleToolkit exampleWorld).1 exampleWorld
      (exampleMode.deactivate exampleToolkit exampleWorld).2
      (by decide) rfl rfl rfl rfl⟩

/-- C5 as stated fails: modes `A` and `A_B` have different names, yet `deactivate()` of
`A`, whose dock is titled `B_X`, overwrites `dock_A_B_X`, the key under which mode `A_B`
keeps the visibility of its dock `X`. -/
theorem layout_isolation_counterexample :
    modeA.name ≠ modeAB.name ∧
    dockKey modeAB.name "X" ∈ settingsKeys modeAB ∧
    QSettings.value exampleToolkit worldAB.settings (dockKey modeAB.name "X")
      = some (QVariant.bool false) ∧
    QSettings.value exampleToolkit (modeA.deactivate exampleToolkit worldAB).2.settings
        (dockKey modeAB.name "X")
      = some (QVariant.bool true) := by
  decide

/-- C5, amended. Per-mode layout persistence is isolated for modes whose settings keys are
apart: for two modes such that no settings key of one (`windowState_` + name,
`dock_` + name + `_` + title, `toolbar_` + name + `_` + title) has, after the key
normalisation of the settings store, the normalised key of a settings key of the
other, `deactivate()` of mode `a` leaves unchanged every settings value that
`activate()` of mode `b` reads.  Hence after switching from `b` to `a` and back,
`activate()` puts `b` into the very state it would have reached on the settings `b`
saved, and when the settings keys of `b` are pairwise distinct after normalisation,
every dock and toolbar of `b` is hidden exactly when it was before the switch. -/
theorem layout_persistence_isolated (qt : Toolkit) (a b : Mode) (w : World)
    (hs : KeysApart qt a b) :
    (∀ (w₂ : World) (key : String), key ∈ settingsKeys b →
      QSettings.value qt (a.deactivate qt w₂).2.settings key
        = QSettings.value qt w₂.settings key) ∧
    (switchAndBack qt a b w).2.1
      = ((b.deactivate qt w).1.activate qt (b.deactivate qt w).2).1 ∧
    (KeysDistinct qt b →
      (switchAndBack qt a b w).2.1.docks.map (fun d => d.isHidden)
        = b.docks.map (fun d => d.isHidden) ∧
      (switchAndBack qt a b w).2.1.toolbars.map (fun t => t.isHidden)
        = b.toolbars.map (fun t => t.isHidden)) := by
  have hframe : ∀ key ∈ settingsKeys (b.deactivate qt w).1,
      QSettings.value qt (switchAndBack qt a b w).2.2.settings key
        = QSettings.value qt (b.deactivate qt w).2.settings key := by
    intro key hkey
    rw [settingsKeys_deactivate] at hkey
    exact deactivate_frame qt (a.activate qt (b.deactivate qt w).2).1 b
      (a.activate qt (b.deactivate qt w).2).2 (keysApart_activate qt a b _ hs) key hkey
  have hback : (switchAndBack qt a b w).2.1
      = ((b.deactivate qt w).1.activate qt (b.deactivate qt w).2).1 :=
    activate_congr qt (b.deactivate qt w).1 _ _ hframe
  have hdocks : (b.deactivate qt w).1.docks.map (fun d => d.windowTitle)
      = b.docks.map (fun d => d.windowTitle) := by
    simp [Mode.deactivate, QWidget.hide]
  have htoolbars : (b.deactivate qt w).1.toolbars.map (fun t => t.windowTitle)
      = b.toolbars.map (fun t => t.windowTitle) := by
    simp [Mode.deactivate, QWidget.hide]
  refine ⟨fun w₂ key hkey => deactivate_frame qt a b w₂ hs key hkey, hback, ?_⟩
  intro hn
  rw [hback]
  exact ⟨activate_after_deactivate_docks qt b (b.deactivate qt w).1 w (b.deactivate qt w).2
      hn rfl hdocks rfl,
    activate_after_deactivate_toolbars qt b (b.deactivate qt w).1 w (b.deactivate qt w).2
      hn rfl htoolbars rfl⟩

/-- Witness of C5 on the modes `Signal Generator` and `Vector Network Analyzer`. -/
theorem layout_persistence_isolated_witness :
    KeysApart exampleToolkit otherMode exampleMode ∧
    KeysDistinct exampleToolkit exampleMode ∧
    (switchAndBack exampleToolkit otherMode exampleMode exampleWorld).2.1.docks.map
        (fun d => d.isHidden) = [false, true] ∧
    (switchAndBack exampleToolkit otherMode exampleMode exampleWorld).2.1.toolbars.map
        (fun t => t.isHidden) = [true, false] :=
  ⟨by decide, by decide,
    (layout_persistence_isolated exampleToolkit otherMode exampleMode exampleWorld
      (by decide)).2.2 (by decide)⟩

/-! ## The claims on the screenshot export -/

end LibreVNA
